import Mathlib

/-!
Verification development for the bfbot stream-trading engine
(source: bfbot/trader.py, class BfStreamTrader).

The engine state and the per-event procedures are shallowly embedded as
pure Lean functions over exact rationals.  External effects are threaded
as explicit inputs:

* the account/position/ticker snapshot is a `Stat` value (the return of
  the method fetch_states); a failing fetch is the constructor
  `FetchResult.error` (the exception caught in `message`);
* the order gateway response is an `OrderResult` (exception caught,
  accepted with an acceptance id, or rejected, with status -205 flagged
  as the oversize rejection);
* the draw of numpy random normal used by the pivot feature, and the
  value of numpy log of the price ratio (both real-valued in the source),
  are passed in as rational inputs `rand` and `lrr`; they are data the
  code consumes, not logic it computes;
* wall-clock instants (datetime.now) are rationals measured in seconds,
  passed in as `now`; the constructor argument timeout becomes the
  rational `timeout_delta`.

Machine floats are modelled as exact rationals.  The python field
`self.open` is named `isOpen` here because `open` is a Lean keyword; all
other names follow the source.  The bet policy is a python string
compared against three literals with a default; it is embedded as a
four-constructor inductive.
-/

set_option maxRecDepth 4000

namespace Bfbot

/-- Order / execution side, the strings BUY and SELL in the source. -/
inductive Side
  | BUY
  | SELL
deriving DecidableEq, Repr

/-- Bet policy names: the string self.trade of key bet is compared with
the literals Martingale, dAlembert and Oscars grind; every other string
falls through to the default branch (constructor `unknown`). -/
inductive BetPolicy
  | martingale
  | dalembert
  | oscars_grind
  | unknown
deriving DecidableEq, Repr

/-- One execution record of the streamed batch: columns side and size. -/
structure Execution where
  side : Side
  size : ℚ
deriving DecidableEq, Repr

/-- Per-side summed volume for one event (the pandas groupby sum). -/
structure VolumeSample where
  buy : ℚ
  sell : ℚ
deriving DecidableEq, Repr

/-- An EWMA mean/variance pair, the dicts self.ewm_vd and self.ewm_lrr. -/
structure EwmState where
  mean : ℚ
  var : ℚ
deriving DecidableEq, Repr

/-- The record self.last_open saved on an accepted opening order. -/
structure LastOpen where
  side : Side
  size : ℚ
  price : ℚ
  collat : ℚ
deriving DecidableEq, Repr

/-- The snapshot dict returned by the method fetch_states. -/
structure Stat where
  collat : ℚ
  pos_side : Option Side
  pos_size : ℚ
  price : ℚ
  sfd_penalized : Option Side
deriving DecidableEq, Repr

/-- Configuration under self.trade: ewm_alpha, sigma_trigger, bet,
size unit and size max (absent key modelled as `none`). -/
structure TradeConfig where
  ewm_alpha : ℚ
  sigma_trigger : ℚ
  bet : BetPolicy
  size_unit : ℚ
  size_max : Option ℚ
deriving DecidableEq, Repr

/-- The mutable fields of BfStreamTrader (timestamps as rational
seconds).  The python field open is named isOpen (Lean keyword). -/
structure State where
  isOpen : Bool
  contrary : Bool
  n_load : ℤ
  ewm_vd : EwmState
  ewm_lrr : EwmState
  volumes : Option VolumeSample
  reserved_side : Option Side
  reserved_size : Option ℚ
  order_datetime : Option ℚ
  lastOpen : Option LastOpen
  n_size_over : ℕ
deriving DecidableEq, Repr

/-- Initial state set in the constructor (lines 28-39 of the source). -/
def initState : State :=
  { isOpen := true, contrary := false, n_load := 100,
    ewm_vd := ⟨0, 1⟩, ewm_lrr := ⟨0, 1⟩, volumes := none,
    reserved_side := none, reserved_size := none, order_datetime := none,
    lastOpen := none, n_size_over := 0 }

/-- Sum of the size column over the rows of one side. -/
def sum_side (sd : Side) (rows : List Execution) : ℚ :=
  (List.map Execution.size (List.filter (fun e => decide (e.side = sd)) rows)).sum

/-- Lines 43-47: the execution batch is loaded into a DataFrame and the
side and size columns are selected BEFORE the two seed rows (BUY, 0) and
(SELL, 0) are appended; on an empty batch the empty DataFrame has no
such columns and the selection raises an uncaught KeyError, modelled as
`none`.  Otherwise the batch with the seed rows appended is grouped by
side and summed. -/
def aggregate_volumes (batch : List Execution) : Option VolumeSample :=
  match batch with
  | [] => none
  | _ :: _ =>
    let rows := batch ++ [⟨Side.BUY, 0⟩, ⟨Side.SELL, 0⟩]
    some { buy := sum_side Side.BUY rows, sell := sum_side Side.SELL rows }

/-- Lines 128-144: EWMA update of the buy-sell volume delta. -/
def compute_ewm_volume_delta (alpha : ℚ) (ewm_vd : EwmState)
    (volumes : VolumeSample) : EwmState :=
  let volume_delta := volumes.buy - volumes.sell
  { mean := alpha * volume_delta + (1 - alpha) * ewm_vd.mean,
    var := (1 - alpha) * (ewm_vd.var + alpha * (volume_delta - ewm_vd.mean) ^ 2) }

/-- Lines 146-165: EWMA update of the log return rate.  The source
computes log_return_rate with numpy log when last_open is set and takes
0 otherwise; the caller supplies that value here. -/
def compute_ewm_log_return_rate (alpha : ℚ) (ewm_lrr : EwmState)
    (log_return_rate : ℚ) : EwmState :=
  { mean := alpha * log_return_rate + (1 - alpha) * ewm_lrr.mean,
    var := (1 - alpha) * (ewm_lrr.var + alpha * (log_return_rate - ewm_lrr.mean) ^ 2) }

/-- The smallest configured SFD pin: self.sfd_pins = [0.05, 0.1, 0.15, 0.2],
so sfd_pins.min() = 0.05. -/
def sfd_pins_min : ℚ := 1/20

/-- Lines 117-120: the penalized side, BUY when the deviation is
non-negative and SELL otherwise, applicable only when the absolute
deviation reaches the smallest pin. -/
def sfd_penalized_side (fx_deviation : ℚ) : Option Side :=
  if sfd_pins_min ≤ |fx_deviation| then
    some (if 0 ≤ fx_deviation then Side.BUY else Side.SELL)
  else none

/-- The side map used on lines 184-187 and 320-322. -/
def flip_side : Side → Side
  | Side.BUY => Side.SELL
  | Side.SELL => Side.BUY

/-- The factor BUY to -1 and SELL to 1 used on line 309. -/
def side_sign : Side → ℚ
  | Side.BUY => -1
  | Side.SELL => 1

/-- Lines 167-189: candidate side.  In opening mode the source tests the
band mean plus or minus sqrt(var) times sigma_trigger against 0; over
non-negative var, min(band) > 0 iff mean > 0 and mean^2 > sigma^2 * var,
and max(band) < 0 iff mean < 0 and the same square inequality, which is
how the sqrt comparison is expressed over rationals.  For negative var,
numpy sqrt yields NaN and every comparison is false, so no side. -/
def determine_order_side (cfg : TradeConfig) (s : State) : Option Side :=
  let fw_side : Option Side :=
    if s.isOpen then
      if s.ewm_vd.var < 0 then none
      else if 0 < s.ewm_vd.mean ∧
          cfg.sigma_trigger ^ 2 * s.ewm_vd.var < s.ewm_vd.mean ^ 2 then
        some Side.BUY
      else if s.ewm_vd.mean < 0 ∧
          cfg.sigma_trigger ^ 2 * s.ewm_vd.var < s.ewm_vd.mean ^ 2 then
        some Side.SELL
      else none
    else
      if 0 < s.ewm_vd.mean then some Side.BUY else some Side.SELL
  if s.contrary then Option.map flip_side fw_side else fw_side

/-- Python round: nearest integer with ties to even (banker rounding). -/
def py_round (q : ℚ) : ℤ :=
  if Int.fract q = 1/2 then (if ⌊q⌋ % 2 = 0 then ⌊q⌋ else ⌊q⌋ + 1)
  else round q

/-- Line 216: the expression size max or bet_size, with python truthiness,
so an absent key and a zero value both fall back to bet_size. -/
def max_or (m : Option ℚ) (bet_size : ℚ) : ℚ :=
  match m with
  | some v => if v = 0 then bet_size else v
  | none => bet_size

/-- Lines 191-221: order size.  Closing mode passes through the reserved
size; a single oversize rejection returns the size of last_open (a None
last_open raises TypeError, returned as `none` here); otherwise with a
prior open the policy size is clamped and rounded; else the unit. -/
def compute_order_size (cfg : TradeConfig) (s : State) (collat : ℚ) : Option ℚ :=
  if !s.isOpen then s.reserved_size
  else if s.n_size_over = 1 then Option.map LastOpen.size s.lastOpen
  else if s.n_size_over = 0 then
    match s.lastOpen with
    | some lo =>
      let won := lo.collat < collat
      let bet_size :=
        match cfg.bet with
        | BetPolicy.martingale => if won then cfg.size_unit else lo.size * 2
        | BetPolicy.dalembert => if won then cfg.size_unit else lo.size + cfg.size_unit
        | BetPolicy.oscars_grind => if won then lo.size + cfg.size_unit else cfg.size_unit
        | BetPolicy.unknown => cfg.size_unit
      some ((py_round (min bet_size (max_or cfg.size_max bet_size) * 1000) : ℚ) / 1000)
    | none => some cfg.size_unit
  else some cfg.size_unit

/-- Lines 224-235: wait for execution while an order timestamp is set,
the reserved and reported sizes differ by at least 0.001 and the timeout
has not elapsed; otherwise overwrite the reserved side and size from the
snapshot and clear the timestamp. -/
def reconcile (timeout_delta : ℚ) (s : State) (stat : Stat) (now : ℚ) : State :=
  match s.reserved_size, s.order_datetime with
  | some r, some t =>
    if 1/1000 ≤ |r - stat.pos_size| ∧ now - t < timeout_delta then s
    else
      { s with reserved_size := some stat.pos_size,
               reserved_side := stat.pos_side, order_datetime := none }
  | _, _ =>
      { s with reserved_size := some stat.pos_size,
               reserved_side := stat.pos_side, order_datetime := none }

/-- The four skip reasons printed by the elif chain of lines 245-264. -/
inductive SkipReason
  | by_queue
  | by_volume_difference
  | by_position
  | by_sfd_penalty
deriving DecidableEq, Repr

/-- Lines 245-264: the veto chain, first match wins: queue mismatch of at
least 0.001, then no candidate side, then candidate equal to the reserved
side, then candidate equal to the SFD-penalized side. -/
def veto_check (reserved_size pos_size : ℚ) (order_side reserved_side
    sfd_penalized : Option Side) : Option SkipReason :=
  if 1/1000 ≤ |reserved_size - pos_size| then some SkipReason.by_queue
  else
    match order_side with
    | none => some SkipReason.by_volume_difference
    | some sd =>
      if reserved_side = some sd then some SkipReason.by_position
      else if sfd_penalized = some sd then some SkipReason.by_sfd_penalty
      else none

/-- Outcome of the sendchildorder call: an exception (caught on line
274), a dict carrying child_order_acceptance_id, or a rejection whose
status field may equal -205 (the oversize code, line 326). -/
inductive OrderResult
  | error
  | accepted
  | rejected (oversize : Bool)
deriving DecidableEq, Repr

/-- Lines 290-323: bookkeeping after an accepted order.  `r` is the
reserved size in force at submission, `rand` the numpy normal draw and
`lrr` the numpy log of price over last_open price (ignored when last_open
is absent, line 149). -/
def apply_accepted (cfg : TradeConfig) (pivot : Bool) (s : State) (stat : Stat)
    (now : ℚ) (order_side : Side) (order_size r rand lrr : ℚ) : State :=
  let s1 := { s with order_datetime := some now }
  if s.isOpen then
    { s1 with
      lastOpen := some ⟨order_side, order_size, stat.price, stat.collat⟩,
      reserved_size := some (r + order_size),
      reserved_side := some order_side,
      n_size_over := 0 }
  else
    let log_rr : ℚ := match s.lastOpen with | some _ => lrr | none => 0
    let s2 :=
      if pivot then
        let new_lrr := compute_ewm_log_return_rate cfg.ewm_alpha s.ewm_lrr log_rr
        let pivot_signal := 0 > rand * side_sign order_side
        { s1 with ewm_lrr := new_lrr,
                  contrary := if pivot_signal then !s.contrary else s.contrary }
      else s1
    let new_size := r - order_size
    { s2 with
      reserved_size := some new_size,
      reserved_side :=
        if |new_size| < 1/1000 then none
        else if new_size ≤ -(1/1000) then some order_side
        else some (flip_side order_side),
      n_size_over := 0 }

/-- Lines 223-328: one call of the method trade.  Returns `none` when the
python would raise (subscripting a None last_open, or comparing a None
reserved size); otherwise the updated state.  The order gateway response
is the input `ores`. -/
def trade (cfg : TradeConfig) (pivot : Bool) (timeout_delta : ℚ) (s : State)
    (stat : Stat) (now : ℚ) (ores : OrderResult) (rand lrr : ℚ) : Option State :=
  let s1 := reconcile timeout_delta s stat now
  match s1.reserved_size with
  | none => none
  | some r =>
    let s2 := { s1 with isOpen := decide (r < cfg.size_unit) }
    let order_side := determine_order_side cfg s2
    match compute_order_size cfg s2 stat.collat with
    | none => none
    | some order_size =>
      match veto_check r stat.pos_size order_side s2.reserved_side stat.sfd_penalized,
            order_side with
      | some _, _ => some s2
      | none, none => some s2
      | none, some sd =>
        match ores with
        | OrderResult.error => some s2
        | OrderResult.accepted =>
            some (apply_accepted cfg pivot s2 stat now sd order_size r rand lrr)
        | OrderResult.rejected oversize =>
            some { s2 with n_size_over := s2.n_size_over + (if oversize then 1 else 0) }

/-- Result of the snapshot fetch on line 51: the Stat dict, or any
exception raised inside fetch_states (caught on line 52). -/
inductive FetchResult
  | ok (stat : Stat)
  | error
deriving DecidableEq, Repr

/-- Lines 42-59: one pubnub event.  The volume aggregation runs first
and its KeyError on an empty batch propagates uncaught (`none`); then
the volumes and the volume-delta EWMA are updated; while n_load is
positive the event only decrements the warm-up counter; otherwise the
snapshot is fetched (a failure is logged and the cycle abandoned) and
the method trade runs. -/
def message_step (cfg : TradeConfig) (pivot : Bool) (timeout_delta : ℚ)
    (s : State) (batch : List Execution) (fetch : FetchResult) (now : ℚ)
    (ores : OrderResult) (rand lrr : ℚ) : Option State :=
  match aggregate_volumes batch with
  | none => none
  | some vs =>
    let s1 := { s with volumes := some vs,
                       ewm_vd := compute_ewm_volume_delta cfg.ewm_alpha s.ewm_vd vs }
    if s1.n_load ≤ 0 then
      match fetch with
      | FetchResult.error => some s1
      | FetchResult.ok stat => trade cfg pivot timeout_delta s1 stat now ores rand lrr
    else
      some { s1 with n_load := s1.n_load - 1 }

/-- Modelled from the spec: result clamped to max (if configured) and
rounded DOWN to the nearest 0.001 granularity, as section 4.3 words it;
stated only to be compared against the source, which uses python round. -/
def spec_clamp_round_down (bet_size mx : ℚ) : ℚ :=
  (⌊min bet_size mx * 1000⌋ : ℚ) / 1000

/-! Concrete example values used by witnesses and counterexamples. -/

/-- A baseline configuration: martingale, unit 1, no maximum. -/
def exCfg : TradeConfig :=
  { ewm_alpha := 1/2, sigma_trigger := 1, bet := BetPolicy.martingale,
    size_unit := 1, size_max := none }

/-- A warmed-up state: the warm-up counter has run out and the
volume-delta EWMA has drifted to mean 5. -/
def exState0 : State :=
  { initState with n_load := 0, ewm_vd := ⟨5, 1⟩ }

/-- A benign snapshot: no position, no SFD penalty. -/
def exStat0 : Stat :=
  { collat := 100, pos_side := none, pos_size := 0, price := 100,
    sfd_penalized := none }

/-- exState0 after its first-ever order was rejected as oversized. -/
def exRej0 : State :=
  { exState0 with reserved_size := some 0, n_size_over := 1 }

/-- A state with a pending order: reserved 1, submitted at time 0. -/
def exPendState : State :=
  { initState with reserved_size := some 1, order_datetime := some 0 }

/-- A snapshot reporting a half-filled position of size 0.5. -/
def exHalfStat : Stat :=
  { collat := 100, pos_side := none, pos_size := 1/2, price := 100,
    sfd_penalized := none }

/-- Configuration with unit 0.001 and no maximum. -/
def exCfg3 : TradeConfig :=
  { ewm_alpha := 1/2, sigma_trigger := 1, bet := BetPolicy.martingale,
    size_unit := 1/1000, size_max := none }

/-- A last accepted opening trade of size 2 at collateral 100. -/
def exOpen2 : LastOpen := ⟨Side.BUY, 2, 100, 100⟩

/-- A warmed-up state holding exOpen2 as the last open. -/
def exState3 : State :=
  { initState with n_load := 0, ewm_vd := ⟨5, 1⟩, lastOpen := some exOpen2 }

/-- A snapshot in which collateral dropped to 50 (lost). -/
def exStat3 : Stat :=
  { collat := 50, pos_side := none, pos_size := 0, price := 100,
    sfd_penalized := none }

/-- exState3 after calibration against the empty position. -/
def exMid3 : State :=
  { exState3 with reserved_size := some 0, reserved_side := none,
                  order_datetime := none }

/-- exMid3 after one oversize rejection. -/
def exRej3 : State := { exMid3 with n_size_over := 1 }

/-- A last accepted opening trade of size 1 at collateral 100. -/
def exOpen1 : LastOpen := ⟨Side.BUY, 1, 100, 100⟩

/-- Configuration whose size max 0.0015 is not a multiple of 0.001. -/
def exCfg6 : TradeConfig :=
  { ewm_alpha := 1/2, sigma_trigger := 1, bet := BetPolicy.martingale,
    size_unit := 1/1000, size_max := some (3/2000) }

/-- exCfg6 with the round maximum 3 instead. -/
def exCfg6b : TradeConfig := { exCfg6 with size_max := some 3 }

/-- A calibrated opening-mode state holding exOpen1 as the last open. -/
def exState6 : State :=
  { initState with n_load := 0, ewm_vd := ⟨5, 1⟩, reserved_size := some 0,
                   lastOpen := some exOpen1 }

/-- A busy state: reserved 1 with an order in flight since time 0 and a
recorded last open. -/
def exState4 : State :=
  { initState with n_load := 0, ewm_vd := ⟨5, 1⟩, lastOpen := some exOpen1,
                   reserved_size := some 1, order_datetime := some 0 }

/-- exState4 as it stands right before order submission (closing mode
recomputed). -/
def exState4e : State := { exState4 with isOpen := false }

/-- exState4 after only the volume and EWMA update of the sell-heavy
batch exBatch2 (whose volume sample is sell 100, buy 0). -/
def exState4m : State :=
  { exState4 with volumes := some ⟨0, 100⟩,
                  ewm_vd := compute_ewm_volume_delta exCfg.ewm_alpha
                    exState4.ewm_vd ⟨0, 100⟩ }

/-- A snapshot reporting the filled BUY position of size 1. -/
def exStat2c : Stat :=
  { collat := 100, pos_side := some Side.BUY, pos_size := 1, price := 100,
    sfd_penalized := none }

/-- A sell-heavy execution batch that flips the EWMA mean negative. -/
def exBatch2 : List Execution := [⟨Side.SELL, 100⟩]

/-- exState0 right after calibration against the empty position. -/
def exMid5a : State :=
  { exState0 with reserved_size := some 0, reserved_side := none,
                  order_datetime := none, isOpen := true }

/-- The mid-cycle state of the closing cycle of the round-trip example. -/
def exMid5b : State :=
  { exState0 with volumes := some ⟨0, 100⟩, ewm_vd := ⟨-95/2, 11027/4⟩,
                  reserved_size := some 1, reserved_side := some Side.BUY,
                  order_datetime := none, isOpen := false,
                  lastOpen := some ⟨Side.BUY, 1, 100, 100⟩, n_size_over := 0 }

/-! Helper lemmas. -/

/-- Python round of an integer value is that integer. -/
theorem py_round_intCast (n : ℤ) : py_round (n : ℚ) = n := by
  norm_num [py_round, Int.fract_intCast, round_intCast]

/-- Unfolding lemma: summing a side over an empty row list gives 0. -/
theorem sum_side_nil (sd : Side) : sum_side sd [] = 0 := rfl

/-- Unfolding lemma: the per-side sum distributes over append. -/
theorem sum_side_append (sd : Side) (l1 l2 : List Execution) :
    sum_side sd (l1 ++ l2) = sum_side sd l1 + sum_side sd l2 := by
  simp [sum_side, List.filter_append, List.map_append]

/-- Unfolding lemma: summing a side over a cons adds the head size
exactly when the head is on that side. -/
theorem sum_side_cons (sd : Side) (e : Execution) (l : List Execution) :
    sum_side sd (e :: l) =
      if e.side = sd then e.size + sum_side sd l else sum_side sd l := by
  by_cases h : e.side = sd <;> simp [sum_side, List.filter_cons, h]

/-- The reconciler only rewrites the reserved fields: last open,
oversize counter, contrarian flag, statistics, warm-up counter and mode
flag are untouched. -/
theorem reconcile_preserves (td : ℚ) (s : State) (stat : Stat) (now : ℚ) :
    (reconcile td s stat now).lastOpen = s.lastOpen ∧
    (reconcile td s stat now).n_size_over = s.n_size_over ∧
    (reconcile td s stat now).contrary = s.contrary := by
  unfold reconcile
  cases hrs : s.reserved_size <;> cases hod : s.order_datetime <;> try simp
  split <;> simp

/-- With the order gateway raising, the trade call either crashes in the
order-size computation or returns exactly the reconciled state with the
recomputed opening flag: no other field is written. -/
theorem trade_error_cases (cfg : TradeConfig) (pivot : Bool) (td : ℚ) (s : State)
    (stat : Stat) (now rand lrr : ℚ) :
    trade cfg pivot td s stat now OrderResult.error rand lrr = none ∨
    ∃ r, (reconcile td s stat now).reserved_size = some r ∧
      trade cfg pivot td s stat now OrderResult.error rand lrr =
        some { reconcile td s stat now with isOpen := decide (r < cfg.size_unit) } := by
  simp only [trade]
  split
  next heq => exact Or.inl rfl
  next r heq =>
    split
    next heq2 => exact Or.inl rfl
    next os heq2 =>
      right
      exact ⟨r, heq, by split <;> rfl⟩

/-!  Claim theorems. -/

/-- C7: for every prior EWMA state and volume sample, the update returns
mean alpha * sample + (1 - alpha) * mean and variance
(1 - alpha) * (var + alpha * (sample - mean) ^ 2), where the sample is
the buy volume minus the sell volume; for alpha = 1 the result is the
sample with variance 0, whatever the prior state. -/
theorem ewm_update_formula (alpha : ℚ) (e : EwmState) (v : VolumeSample) :
    compute_ewm_volume_delta alpha e v =
      ⟨alpha * (v.buy - v.sell) + (1 - alpha) * e.mean,
       (1 - alpha) * (e.var + alpha * ((v.buy - v.sell) - e.mean) ^ 2)⟩ ∧
    compute_ewm_volume_delta 1 e v = ⟨v.buy - v.sell, 0⟩ := by
  constructor
  · rfl
  · simp only [compute_ewm_volume_delta]
    congr 1 <;> ring

/-- C8 counterexample: the source selects the side and size columns
before appending the seed rows, so on the empty batch the selection
raises an uncaught KeyError instead of yielding zero volumes: the
aggregator does have a failure mode and the empty batch does not yield
buy 0, sell 0. -/
theorem aggregate_volumes_empty_cex :
    aggregate_volumes [] = none ∧
    aggregate_volumes [] ≠ some (⟨0, 0⟩ : VolumeSample) := by
  constructor
  · rfl
  · simp [aggregate_volumes]

/-- C8 amended: for every NON-empty execution batch the aggregator
returns a two-sided result in which each side's volume is the sum of
that side's sizes and a side absent from the batch contributes 0 (the
seed rows); in particular the batch BUY 3, SELL 0 yields buy 3 and
sell 0.  The empty batch is a failure mode: the column selection runs
before the seeding and raises KeyError. -/
theorem aggregate_volumes_sums (batch : List Execution) (h : batch ≠ []) :
    aggregate_volumes batch =
      some ⟨sum_side Side.BUY batch, sum_side Side.SELL batch⟩ ∧
    aggregate_volumes [⟨Side.BUY, 3⟩, ⟨Side.SELL, 0⟩] = some ⟨3, 0⟩ := by
  constructor
  · cases batch with
    | nil => exact absurd rfl h
    | cons e rest =>
      have hb : sum_side Side.BUY ((e :: rest) ++ [⟨Side.BUY, 0⟩, ⟨Side.SELL, 0⟩]) =
          sum_side Side.BUY (e :: rest) := by
        rw [sum_side_append]
        simp [sum_side_cons, sum_side_nil]
      have hs : sum_side Side.SELL ((e :: rest) ++ [⟨Side.BUY, 0⟩, ⟨Side.SELL, 0⟩]) =
          sum_side Side.SELL (e :: rest) := by
        rw [sum_side_append]
        simp [sum_side_cons, sum_side_nil]
      simp only [aggregate_volumes, hb, hs]
  · simp [aggregate_volumes, sum_side_cons, sum_side_nil]

/-- Witness for aggregate_volumes_sums at the concrete two-row batch of
the spec example. -/
theorem aggregate_volumes_sums_witness :
    aggregate_volumes [⟨Side.BUY, 3⟩, ⟨Side.SELL, 0⟩] =
      some ⟨sum_side Side.BUY [⟨Side.BUY, 3⟩, ⟨Side.SELL, 0⟩],
            sum_side Side.SELL [⟨Side.BUY, 3⟩, ⟨Side.SELL, 0⟩]⟩ :=
  (aggregate_volumes_sums [⟨Side.BUY, 3⟩, ⟨Side.SELL, 0⟩] (by simp)).1

/-- C1 counterexample: with a deviation of 0.1 the penalized side is
BUY; a candidate BUY order that matches both the reserved side and the
penalized side is vetoed with the position reason, not the SFD-penalty
reason the claim requires. -/
theorem veto_sfd_precedence_cex :
    sfd_penalized_side (1/10) = some Side.BUY ∧
    veto_check 1 1 (some Side.BUY) (some Side.BUY) (sfd_penalized_side (1/10)) =
      some SkipReason.by_position ∧
    SkipReason.by_position ≠ SkipReason.by_sfd_penalty := by
  refine ⟨?_, ?_, by decide⟩
  · have habs : |(1/10 : ℚ)| = 1/10 := abs_of_nonneg (by norm_num)
    norm_num [sfd_penalized_side, sfd_pins_min, habs]
  · norm_num [veto_check]

/-- C1 amended: when the candidate side triggers both the SFD-penalty
veto and the same-side position veto, the veto chain reports the
position reason, because the checks fire in the fixed source order
(queue, no candidate, position, SFD penalty) with first match winning
and the position check precedes the SFD-penalty check. -/
theorem veto_position_over_sfd (rs ps : ℚ) (sd : Side) (pen : Option Side)
    (h1 : |rs - ps| < 1/1000) (_h2 : pen = some sd) :
    veto_check rs ps (some sd) (some sd) pen = some SkipReason.by_position := by
  have hq : ¬ (1/1000 : ℚ) ≤ |rs - ps| := not_le.mpr h1
  unfold veto_check
  rw [if_neg hq]
  simp

/-- Witness for veto_position_over_sfd at a concrete input. -/
theorem veto_position_over_sfd_witness :
    veto_check 1 1 (some Side.BUY) (some Side.BUY) (some Side.BUY) =
      some SkipReason.by_position :=
  veto_position_over_sfd 1 1 Side.BUY (some Side.BUY) (by norm_num) rfl

/-- C3 counterexample: from a lost martingale state whose last accepted
open had size 2, the attempted order size is 4; after that attempt is
rejected as oversized, the retry size is 2 (the last accepted open
size), not 4 (the size of the rejected attempt). -/
theorem oversize_retry_cex :
    compute_order_size exCfg3 exMid3 50 = some 4 ∧
    trade exCfg3 false 3600 exState3 exStat3 0 (OrderResult.rejected true) 0 0 =
      some exRej3 ∧
    compute_order_size exCfg3 exRej3 50 = some 2 ∧
    (2 : ℚ) ≠ 4 := by
  refine ⟨?_, ?_, ?_, by norm_num⟩
  · norm_num [compute_order_size, exCfg3, exMid3, exState3, initState, exOpen2,
      max_or, py_round, Int.fract, round_eq]
  · norm_num [trade, reconcile, determine_order_side, compute_order_size,
      veto_check, exCfg3, exState3, exStat3, exMid3, exRej3, initState, exOpen2,
      max_or, py_round, Int.fract, round_eq]
    try simp
  · norm_num [compute_order_size, exCfg3, exRej3, exMid3, exState3, initState,
      exOpen2]

/-- C3 amended: in opening mode with the oversize counter equal to 1,
the computed order size equals the size of the last ACCEPTED opening
trade (which need not equal the size of the rejected attempt), so
successive calls in that state all return that same size. -/
theorem oversize_retry_size (cfg : TradeConfig) (s : State) (collat : ℚ)
    (lo : LastOpen) (hopen : s.isOpen = true) (hn : s.n_size_over = 1)
    (hlo : s.lastOpen = some lo) :
    compute_order_size cfg s collat = some lo.size := by
  simp [compute_order_size, hopen, hn, hlo]

/-- Witness for oversize_retry_size at a concrete input. -/
theorem oversize_retry_size_witness :
    compute_order_size exCfg3 exRej3 50 = some exOpen2.size :=
  oversize_retry_size exCfg3 exRej3 50 exOpen2 rfl rfl rfl

/-- C9: in opening mode, when the oversize counter is 1 but no opening
trade was ever accepted (last_open is None), the order-size computation
subscripts None and raises instead of returning a size. -/
theorem first_rejection_crash (cfg : TradeConfig) (s : State) (collat : ℚ)
    (hopen : s.isOpen = true) (hn : s.n_size_over = 1) (hlo : s.lastOpen = none) :
    compute_order_size cfg s collat = none := by
  simp [compute_order_size, hopen, hn, hlo]

/-- Witness for first_rejection_crash, with reachability: the first-ever
order of a fresh warmed-up engine is rejected as oversized, producing
exactly the crashing state, and the next cycle then fails. -/
theorem first_rejection_crash_witness :
    trade exCfg false 3600 exState0 exStat0 0 (OrderResult.rejected true) 0 0 =
      some exRej0 ∧
    compute_order_size exCfg exRej0 100 = none ∧
    trade exCfg false 3600 exRej0 exStat0 1 OrderResult.accepted 0 0 = none := by
  refine ⟨?_, first_rejection_crash exCfg exRej0 100 rfl rfl rfl, ?_⟩
  · norm_num [trade, reconcile, determine_order_side, compute_order_size,
      veto_check, exCfg, exState0, exStat0, exRej0, initState]
    try simp
  · norm_num [trade, reconcile, determine_order_side, compute_order_size,
      veto_check, exCfg, exState0, exStat0, exRej0, initState]
    try simp

/-- C4: cycle atomicity on external failure.  If the snapshot fetch
raises, the event only updates the volumes and the volume EWMA: every
other field (reserved side and size, order timestamp, last open,
oversize counter, contrarian flag) is unchanged and the trade step does
not run.  If the order submission raises, the returned state is exactly
the state at the failure point: last open, oversize counter and
contrarian flag equal the pre-cycle values and the reserved fields equal
the reconciled values, with no order bookkeeping. -/
theorem failure_no_mutation (cfg : TradeConfig) (pivot : Bool) (td : ℚ)
    (s : State) (batch : List Execution) (stat : Stat) (now rand lrr : ℚ)
    (ores : OrderResult) (vs : VolumeSample) (hn : s.n_load ≤ 0)
    (hvs : aggregate_volumes batch = some vs) :
    message_step cfg pivot td s batch FetchResult.error now ores rand lrr =
      some { s with volumes := some vs,
                    ewm_vd := compute_ewm_volume_delta cfg.ewm_alpha s.ewm_vd vs } ∧
    ∀ s', trade cfg pivot td s stat now OrderResult.error rand lrr = some s' →
      s'.lastOpen = s.lastOpen ∧ s'.n_size_over = s.n_size_over ∧
      s'.contrary = s.contrary ∧
      s'.reserved_side = (reconcile td s stat now).reserved_side ∧
      s'.reserved_size = (reconcile td s stat now).reserved_size ∧
      s'.order_datetime = (reconcile td s stat now).order_datetime := by
  constructor
  · simp [message_step, hvs, hn]
  · intro s' h
    rcases trade_error_cases cfg pivot td s stat now rand lrr with hnone | ⟨r, hr, heq⟩
    · rw [hnone] at h
      exact Option.noConfusion h
    · rw [heq] at h
      cases Option.some.inj h
      obtain ⟨hp1, hp2, hp3⟩ := reconcile_preserves td s stat now
      exact ⟨hp1, hp2, hp3, rfl, rfl, rfl⟩

/-- Witness for failure_no_mutation at a concrete input: a state with an
order in flight, an erroring fetch and an erroring submission. -/
theorem failure_no_mutation_witness :
    message_step exCfg false 3600 exState4 exBatch2 FetchResult.error 5
      OrderResult.accepted 0 0 = some exState4m ∧
    (exState4e.lastOpen = exState4.lastOpen ∧
      exState4e.n_size_over = exState4.n_size_over ∧
      exState4e.contrary = exState4.contrary ∧
      exState4e.reserved_side = (reconcile 3600 exState4 exStat0 5).reserved_side ∧
      exState4e.reserved_size = (reconcile 3600 exState4 exStat0 5).reserved_size ∧
      exState4e.order_datetime = (reconcile 3600 exState4 exStat0 5).order_datetime) := by
  have H := failure_no_mutation exCfg false 3600 exState4 exBatch2 exStat0 5 0 0
    OrderResult.accepted ⟨0, 100⟩ (by norm_num [exState4, initState])
    (by simp [aggregate_volumes, exBatch2, sum_side_cons, sum_side_nil])
  refine ⟨H.1, H.2 exState4e ?_⟩
  norm_num [trade, reconcile, determine_order_side, compute_order_size, veto_check,
    exCfg, exState4, exState4e, exStat0, initState, exOpen1, abs_of_nonneg]
  try simp

/-- C6 counterexample: lost martingale with last open size 1 and
configured max 0.0015: the code returns 0.002 (python round is nearest,
ties to even), while clamping to max and rounding down would return
0.001; the code result even exceeds the configured max. -/
theorem martingale_round_cex :
    compute_order_size exCfg6 exState6 50 = some (1/500) ∧
    spec_clamp_round_down 2 (3/2000) = 1/1000 ∧
    (1/500 : ℚ) ≠ 1/1000 ∧ ¬((1/500 : ℚ) ≤ 3/2000) := by
  refine ⟨?_, ?_, by norm_num, by norm_num⟩
  · norm_num [compute_order_size, exCfg6, exState6, initState, exOpen1,
      max_or, py_round, Int.fract, round_eq, min_def]
  · norm_num [spec_clamp_round_down, min_def]

/-- C6 amended: for a lost martingale opening cycle the bet size is
2 * lastOpen.size, clamped through min against the configured max and
rounded at the 0.001 granularity by python round (nearest, ties to
even, not rounding down); when both lastOpen.size and the max are
integer multiples of 0.001 the result is exactly
min(2 * lastOpen.size, max). -/
theorem martingale_lost_size (cfg : TradeConfig) (s : State) (collat : ℚ)
    (lo : LastOpen)
    (hb : cfg.bet = BetPolicy.martingale) (hopen : s.isOpen = true)
    (hn : s.n_size_over = 0) (hlo : s.lastOpen = some lo)
    (hlost : collat ≤ lo.collat) :
    compute_order_size cfg s collat =
      some ((py_round (min (lo.size * 2) (max_or cfg.size_max (lo.size * 2)) * 1000) : ℚ)
        / 1000) ∧
    ∀ k m : ℤ, lo.size = (k : ℚ)/1000 → cfg.size_max = some ((m : ℚ)/1000) → m ≠ 0 →
      compute_order_size cfg s collat = some (min (lo.size * 2) ((m : ℚ)/1000)) := by
  have key : compute_order_size cfg s collat =
      some ((py_round (min (lo.size * 2) (max_or cfg.size_max (lo.size * 2)) * 1000) : ℚ)
        / 1000) := by
    simp [compute_order_size, hopen, hn, hlo, hb, not_lt.mpr hlost]
  refine ⟨key, fun k m hk hm hm0 => ?_⟩
  rw [key, hk, hm]
  have hm0q : ((m : ℚ)/1000) ≠ 0 := by
    simp [div_eq_zero_iff, Int.cast_eq_zero, hm0]
  have hmo : max_or (some ((m : ℚ)/1000)) ((k : ℚ)/1000 * 2) = (m : ℚ)/1000 := by
    simp [max_or, hm0q]
  rw [hmo]
  have h2k : (k : ℚ)/1000 * 2 = ((2 * k : ℤ) : ℚ)/1000 := by push_cast; ring
  have hcast : ((min (2 * k) m : ℤ) : ℚ) = min (((2 * k : ℤ) : ℚ)) ((m : ℚ)) := by
    rcases le_total (2 * k) m with h | h
    · rw [min_eq_left h, min_eq_left (by exact_mod_cast h)]
    · rw [min_eq_right h, min_eq_right (by exact_mod_cast h)]
  have hmin : min ((k : ℚ)/1000 * 2) ((m : ℚ)/1000) = ((min (2 * k) m : ℤ) : ℚ)/1000 := by
    rw [h2k, min_div_div_right (by norm_num : (0:ℚ) ≤ 1000), hcast]
  rw [hmin]
  rw [div_mul_cancel₀ _ (by norm_num : (1000 : ℚ) ≠ 0), py_round_intCast]

/-- Witness for martingale_lost_size at a concrete input: last open
size 1, max 3, lost, so the next size is exactly min(2, 3) = 2. -/
theorem martingale_lost_size_witness :
    compute_order_size exCfg6b exState6 50 = some 2 := by
  have h := (martingale_lost_size exCfg6b exState6 50 exOpen1 (by rfl) (by rfl)
    (by rfl) (by rfl) (by norm_num [exOpen1])).2 1000 3000 (by norm_num [exOpen1])
    (by norm_num [exCfg6b, exCfg6]) (by norm_num)
  rw [h]
  norm_num [exOpen1]

/-- C10: when the configured maximum size is absent or zero, the clamp
degenerates to the identity and the policy size is not clamped: a lost
martingale cycle returns exactly twice the last open size (whenever that
size sits on the 0.001 grid, so that rounding is exact). -/
theorem no_max_no_clamp (cfg : TradeConfig) (s : State) (collat : ℚ)
    (lo : LastOpen) (k : ℤ)
    (hmax : cfg.size_max = none ∨ cfg.size_max = some 0)
    (hb : cfg.bet = BetPolicy.martingale) (hopen : s.isOpen = true)
    (hn : s.n_size_over = 0) (hlo : s.lastOpen = some lo)
    (hlost : collat ≤ lo.collat) (hk : lo.size = (k : ℚ)/1000) :
    max_or cfg.size_max (lo.size * 2) = lo.size * 2 ∧
    compute_order_size cfg s collat = some (lo.size * 2) := by
  have hmo : max_or cfg.size_max (lo.size * 2) = lo.size * 2 := by
    rcases hmax with h | h <;> simp [max_or, h]
  have key : compute_order_size cfg s collat =
      some ((py_round (min (lo.size * 2) (max_or cfg.size_max (lo.size * 2)) * 1000) : ℚ)
        / 1000) := by
    simp [compute_order_size, hopen, hn, hlo, hb, not_lt.mpr hlost]
  refine ⟨hmo, ?_⟩
  rw [key, hmo, min_self]
  have h2k : lo.size * 2 * 1000 = ((2 * k : ℤ) : ℚ) := by
    rw [hk]; push_cast; ring
  rw [h2k, py_round_intCast]
  have hback : ((2 * k : ℤ) : ℚ)/1000 = lo.size * 2 := by
    rw [hk]; push_cast; ring
  rw [hback]

/-- C2: with a reserved size on record, the reconciler stays pending
(state returned unchanged, and the queue veto then skips trading) if
and only if an order timestamp is recorded, the reserved size differs
from the exchange-reported size by at least 0.001 and the elapsed time
is strictly below the timeout; otherwise it calibrates, overwriting the
reserved side and size from the snapshot and clearing the timestamp. -/
theorem reconcile_pending_iff (td : ℚ) (s : State) (stat : Stat) (now r : ℚ)
    (hr : s.reserved_size = some r) :
    ((∃ t, s.order_datetime = some t ∧ 1/1000 ≤ |r - stat.pos_size| ∧ now - t < td) →
        reconcile td s stat now = s ∧
        ∀ oside rside pen, veto_check r stat.pos_size oside rside pen =
          some SkipReason.by_queue) ∧
    ((∀ t, s.order_datetime = some t → ¬(1/1000 ≤ |r - stat.pos_size| ∧ now - t < td)) →
        reconcile td s stat now =
          { s with reserved_size := some stat.pos_size,
                   reserved_side := stat.pos_side, order_datetime := none }) := by
  constructor
  · rintro ⟨t, ht, h1, h2⟩
    constructor
    · simp only [reconcile, hr, ht]
      rw [if_pos ⟨h1, h2⟩]
    · intro oside rside pen
      unfold veto_check
      rw [if_pos h1]
  · intro h
    cases hod : s.order_datetime with
    | none => simp only [reconcile, hr, hod]
    | some t =>
      simp only [reconcile, hr, hod]
      rw [if_neg (h t hod)]

/-- Witness for reconcile_pending_iff at the spec example: reserved 1.0,
exchange 0.5, timeout 60; elapsed 10 stays pending, elapsed 120
calibrates overwriting the reserved size to 0.5. -/
theorem reconcile_pending_iff_witness :
    reconcile 60 exPendState exHalfStat 10 = exPendState ∧
    reconcile 60 exPendState exHalfStat 120 =
      { exPendState with reserved_size := some (1/2), reserved_side := none,
                         order_datetime := none } := by
  constructor
  · exact ((reconcile_pending_iff 60 exPendState exHalfStat 10 1 (by rfl)).1
      ⟨0, by rfl, by norm_num [exHalfStat, abs_of_nonneg], by norm_num⟩).1
  · refine (reconcile_pending_iff 60 exPendState exHalfStat 120 1 (by rfl)).2 ?_
    intro t ht hc
    have ht0 : t = 0 := by
      simp [exPendState, initState] at ht
      exact ht.symm
    rw [ht0] at hc
    norm_num at hc

/-- Witness for no_max_no_clamp at a concrete input: max absent, last
open size 2, lost, so the next size is exactly 4 with no clamping. -/
theorem no_max_no_clamp_witness :
    max_or exCfg3.size_max (exOpen2.size * 2) = exOpen2.size * 2 ∧
    compute_order_size exCfg3 exMid3 50 = some (exOpen2.size * 2) :=
  no_max_no_clamp exCfg3 exMid3 50 exOpen2 2000 (Or.inl (by rfl)) (by rfl) (by rfl)
    (by rfl) (by rfl) (by norm_num [exOpen2]) (by norm_num [exOpen2])

/-- C5: round trip of the reserved state.  From a calibrated state with
zero position, an accepted opening order (of the computed size, at least
one unit so the next cycle is a full close) followed on the next event
by an accepted closing order, whose size equals the reserved size by the
full-close pass-through rule, returns the reserved size to exactly 0 and
the reserved side to NONE. -/
theorem open_close_round_trip
    (cfg : TradeConfig) (pivot : Bool) (td : ℚ) (s0 mid1 mid2 : State)
    (stat1 stat2 : Stat) (batch2 : List Execution)
    (now1 now2 rand lrr : ℚ) (sd1 sd2 : Side) (sz : ℚ) (vs2 : VolumeSample)
    (h0 : s0.order_datetime = none)
    (hz : stat1.pos_size = 0) (hzs : stat1.pos_side = none)
    (hu : 0 < cfg.size_unit)
    (hn : s0.n_load ≤ 0)
    (hmid1 : mid1 = { s0 with reserved_size := some 0, reserved_side := none,
                              order_datetime := none, isOpen := true })
    (hsd1 : determine_order_side cfg mid1 = some sd1)
    (hsz : compute_order_size cfg mid1 stat1.collat = some sz)
    (hsfd1 : stat1.sfd_penalized ≠ some sd1)
    (hszu : cfg.size_unit ≤ sz)
    (hpos2 : stat2.pos_size = sz)
    (hagg : aggregate_volumes batch2 = some vs2)
    (hmid2 : mid2 = { s0 with
        volumes := some vs2,
        ewm_vd := compute_ewm_volume_delta cfg.ewm_alpha s0.ewm_vd vs2,
        reserved_size := some sz, reserved_side := stat2.pos_side,
        order_datetime := none, isOpen := false,
        lastOpen := some ⟨sd1, sz, stat1.price, stat1.collat⟩, n_size_over := 0 })
    (hsd2 : determine_order_side cfg mid2 = some sd2)
    (hps2 : stat2.pos_side ≠ some sd2)
    (hsfd2 : stat2.sfd_penalized ≠ some sd2) :
    ∃ s1 sF : State,
      trade cfg pivot td s0 stat1 now1 OrderResult.accepted rand lrr = some s1 ∧
      message_step cfg pivot td s1 batch2 (FetchResult.ok stat2) now2
        OrderResult.accepted rand lrr = some sF ∧
      sF.reserved_size = some 0 ∧ sF.reserved_side = none := by
  subst hmid1
  subst hmid2
  have hrec1 : reconcile td s0 stat1 now1 =
      { s0 with reserved_size := some 0, reserved_side := none,
                order_datetime := none } := by
    cases hrs : s0.reserved_size <;> simp only [reconcile, hrs, h0] <;> rw [hz, hzs]
  have h1trade : trade cfg pivot td s0 stat1 now1 OrderResult.accepted rand lrr =
      some { s0 with isOpen := true, reserved_size := some sz,
                     reserved_side := some sd1, order_datetime := some now1,
                     lastOpen := some ⟨sd1, sz, stat1.price, stat1.collat⟩,
                     n_size_over := 0 } := by
    simp only [trade, hrec1]
    simp [decide_eq_true hu, hsd1, hsz, veto_check, hz, hsfd1, apply_accepted,
      (by norm_num : ¬ (1/1000 : ℚ) ≤ 0), (by norm_num : ¬ (1000 : ℚ) ≤ 0)]
  have hrec2 : reconcile td
      { s0 with isOpen := true, reserved_size := some sz, reserved_side := some sd1,
                order_datetime := some now1,
                lastOpen := some ⟨sd1, sz, stat1.price, stat1.collat⟩,
                n_size_over := 0, volumes := some vs2,
                ewm_vd := compute_ewm_volume_delta cfg.ewm_alpha s0.ewm_vd vs2 }
      stat2 now2 =
      { s0 with isOpen := true, reserved_size := some sz,
                reserved_side := stat2.pos_side, order_datetime := none,
                lastOpen := some ⟨sd1, sz, stat1.price, stat1.collat⟩,
                n_size_over := 0, volumes := some vs2,
                ewm_vd := compute_ewm_volume_delta cfg.ewm_alpha s0.ewm_vd vs2 } := by
    simp [reconcile, hpos2, (by norm_num : ¬ (1/1000 : ℚ) ≤ 0),
      (by norm_num : ¬ (1000 : ℚ) ≤ 0)]
  refine ⟨_, apply_accepted cfg pivot
      { s0 with volumes := some vs2,
                ewm_vd := compute_ewm_volume_delta cfg.ewm_alpha s0.ewm_vd vs2,
                reserved_size := some sz, reserved_side := stat2.pos_side,
                order_datetime := none, isOpen := false,
                lastOpen := some ⟨sd1, sz, stat1.price, stat1.collat⟩,
                n_size_over := 0 }
      stat2 now2 sd2 sz sz rand lrr, h1trade, ?_, ?_, ?_⟩
  · simp [message_step, hagg, hn, trade, hrec2, decide_eq_false (not_lt.mpr hszu),
      hsd2, compute_order_size, veto_check, hpos2, hps2, hsfd2,
      (by norm_num : ¬ (1/1000 : ℚ) ≤ 0), (by norm_num : ¬ (1000 : ℚ) ≤ 0)]
  · simp [apply_accepted]
  · simp [apply_accepted, (by norm_num : |(0:ℚ)| < 1/1000)]

/-- Witness for open_close_round_trip at a concrete input: open BUY 1
from flat, the exchange reports the filled position, a sell-heavy batch
flips the signal, and the accepted SELL 1 close zeroes the reserve. -/
theorem open_close_round_trip_witness :
    ∃ s1 sF : State,
      trade exCfg false 3600 exState0 exStat0 0 OrderResult.accepted 0 0 = some s1 ∧
      message_step exCfg false 3600 s1 exBatch2 (FetchResult.ok exStat2c) 10
        OrderResult.accepted 0 0 = some sF ∧
      sF.reserved_size = some 0 ∧ sF.reserved_side = none := by
  exact open_close_round_trip exCfg false 3600 exState0 exMid5a exMid5b exStat0
    exStat2c exBatch2 0 10 0 0 Side.BUY Side.SELL 1 ⟨0, 100⟩
    (by rfl) (by rfl) (by rfl)
    (by norm_num [exCfg])
    (by norm_num [exState0, initState])
    (by rfl)
    (by norm_num [determine_order_side, exMid5a, exState0, initState, exCfg])
    (by simp [compute_order_size, exMid5a, exState0, initState, exCfg])
    (by simp [exStat0])
    (by norm_num [exCfg])
    (by rfl)
    (by simp [aggregate_volumes, exBatch2, sum_side_cons, sum_side_nil])
    (by simp [exMid5b, exState0, initState, exCfg, exStat2c, exStat0,
          compute_ewm_volume_delta]
        norm_num)
    (by norm_num [determine_order_side, exMid5b, exState0, initState, exCfg])
    (by simp [exStat2c])
    (by simp [exStat2c])

end Bfbot
